import Mathlib

/-!
Verification of the policy rule composition and execution engine of the
`repolint` repository (package `repolint`, modules `rules/base.py`,
`rules/context.py`, `linter.py`).

The development shallowly embeds the Python source:
* `RuleData`, `RuleSetItem`, `RuleSet` model the rule / rule-set tree of
  `rules/base.py`;
* `RuleSet.rules` and `RuleSet.effective_rules` translate the two
  resolution algorithms of `RuleSet`;
* `process_rule` / `check_repository` / `lint_repositories` translate the
  execution engine of `linter.py`, with Python exceptions modelled by
  `PyResult` and console effects recorded in an event trace.
-/

namespace Repolint

/-- Model of class `Rule` (`rules/base.py`): identifier, description and the
class-level `mutually_exclusive_with` set of rule ids, here a list used only
through membership. -/
structure RuleData where
  rule_id : String
  description : String
  mutually_exclusive_with : List String
  deriving DecidableEq, Repr

mutual

/-- An element of `RuleSet._items`: either a `Rule` or a nested `RuleSet`. -/
inductive RuleSetItem where
  | rule : RuleData → RuleSetItem
  | set : RuleSet → RuleSetItem

/-- Model of class `RuleSet` (`rules/base.py`): id, description and the
ordered `_items` list holding rules and nested rule sets. -/
inductive RuleSet where
  | mk : String → String → List RuleSetItem → RuleSet

end

/-- The inner generator `remove_dupes` of `RuleSet.rules`: iterate over the
(already reversed) rule list, keeping a rule whenever its id has not been
seen yet and adding the id to `seen` when it is kept. -/
def remove_dupes : List RuleData → List String → List RuleData
  | [], _ => []
  | r :: rest, seen =>
    if r.rule_id ∈ seen then remove_dupes rest seen
    else r :: remove_dupes rest (r.rule_id :: seen)

mutual

/-- Model of `RuleSet.rules` (`rules/base.py` lines 112-137): flatten the
items depth-first (nested rule sets contribute their own resolved
sequence), then run `remove_dupes` over the reversed list and reverse the
result back. -/
def RuleSet.rules : RuleSet → List RuleData
  | .mk _ _ items => (remove_dupes (flatten_items items).reverse []).reverse

/-- The flattening loop of `RuleSet.rules`: rules are appended, nested rule
sets are extended with their own `rules()` sequence. -/
def flatten_items : List RuleSetItem → List RuleData
  | [] => []
  | .rule r :: rest => r :: flatten_items rest
  | .set s :: rest => s.rules ++ flatten_items rest

end

/-- Spec-side description of the deduplication step of `resolve()`:
"scanning the concatenated sequence from the end, keep the first time each
identifier is seen (i.e., its rightmost occurrence) and discard earlier
occurrences of the same identifier; restore the kept subset to original
relative order" — stated directly: an element is kept iff its identifier
does not occur again later in the sequence. -/
def keepLastOccurrences : List RuleData → List RuleData
  | [] => []
  | r :: rest =>
    if r.rule_id ∈ rest.map (fun y => y.rule_id) then keepLastOccurrences rest
    else r :: keepLastOccurrences rest

mutual

/-- Spec-side description of `resolve()`: depth-first, child-list-order
concatenation of own rules and the already-resolved sequences of nested
RuleSets, deduplicated with last-occurrence-wins. -/
def resolveSpec : RuleSet → List RuleData
  | .mk _ _ items => keepLastOccurrences (resolveSpecFlatten items)

/-- Spec-side flattening: own rules in place, nested rule sets replaced by
their already-resolved sequences. -/
def resolveSpecFlatten : List RuleSetItem → List RuleData
  | [] => []
  | .rule r :: rest => r :: resolveSpecFlatten rest
  | .set s :: rest => resolveSpec s ++ resolveSpecFlatten rest

end

/-! ### `effective_rules` (`rules/base.py` lines 139-183) -/

/-- `d.get(k, set())` for the association-list model of the Python dict
`mutually_exclusive_rules : dict[str, set[str]]`. -/
def dictGetD : List (String × List String) → String → List String
  | [], _ => []
  | (k2, v) :: rest, k => if k = k2 then v else dictGetD rest k

/-- `d[k] = d.get(k, set()) | {v}`: add `v` to the set stored at key `k`
(sets are modelled as duplicate-free-by-membership lists; only membership is
ever observed). -/
def dictAdd : List (String × List String) → String → String → List (String × List String)
  | [], k, v => [(k, [v])]
  | (k2, vs) :: rest, k, v =>
    if k = k2 then (k2, if v ∈ vs then vs else v :: vs) :: rest
    else (k2, vs) :: dictAdd rest k v

/-- The dictionary-building loop of `effective_rules`: for every rule and
every id in its `mutually_exclusive_with`, record the exclusion in both
directions. -/
def buildMutexDict (all_rules : List RuleData) : List (String × List String) :=
  all_rules.foldl
    (fun d rule =>
      rule.mutually_exclusive_with.foldl
        (fun d id => dictAdd (dictAdd d rule.rule_id id) id rule.rule_id) d)
    []

/-- The inner generator `filter_exclusive_rules` of `effective_rules`:
scan the (already reversed) rule list keeping a rule when its id is not in
`excluded_rules`, and on keeping it add all ids mutually exclusive with it. -/
def filter_exclusive_rules (d : List (String × List String)) :
    List RuleData → List String → List RuleData
  | [], _ => []
  | rule :: rest, excluded =>
    if rule.rule_id ∈ excluded then filter_exclusive_rules d rest excluded
    else rule :: filter_exclusive_rules d rest (dictGetD d rule.rule_id ++ excluded)

/-- The body of `RuleSet.effective_rules` applied to an arbitrary resolved
rule list. -/
def effectiveOf (all_rules : List RuleData) : List RuleData :=
  (filter_exclusive_rules (buildMutexDict all_rules) all_rules.reverse []).reverse

/-- Model of `RuleSet.effective_rules` (`rules/base.py` lines 139-183):
take the resolved rules, build the symmetric exclusion dictionary, filter
from the end and reverse back to original order. -/
def RuleSet.effective_rules (rs : RuleSet) : List RuleData :=
  effectiveOf rs.rules

/-- The symmetric closure of the declared exclusions over a rule list:
`mutexRel all a b` holds when some rule in `all` named `a` declares `b`
excluded, or some rule named `b` declares `a` excluded. -/
def mutexRel (all_rules : List RuleData) (a b : String) : Prop :=
  ∃ r ∈ all_rules,
    (r.rule_id = a ∧ b ∈ r.mutually_exclusive_with) ∨
    (r.rule_id = b ∧ a ∈ r.mutually_exclusive_with)

instance (all_rules : List RuleData) (a b : String) :
    Decidable (mutexRel all_rules a b) := by
  unfold mutexRel; infer_instance

/-! ### Lemmas about `remove_dupes` and `keepLastOccurrences` -/

theorem remove_dupes_congr (l : List RuleData) (s1 s2 : List String)
    (h : ∀ a, a ∈ s1 ↔ a ∈ s2) : remove_dupes l s1 = remove_dupes l s2 := by
  induction l generalizing s1 s2 with
  | nil => rfl
  | cons r rest ih =>
    simp only [remove_dupes]
    by_cases hr : r.rule_id ∈ s1
    · rw [if_pos hr, if_pos ((h _).mp hr)]
      exact ih s1 s2 h
    · rw [if_neg hr, if_neg (fun hc => hr ((h _).mpr hc))]
      refine congrArg (r :: ·) (ih _ _ ?_)
      intro a
      simp only [List.mem_cons]
      exact or_congr Iff.rfl (h a)

theorem remove_dupes_append (x : RuleData) (l : List RuleData) (seen : List String) :
    remove_dupes (l ++ [x]) seen =
      remove_dupes l seen ++
        (if x.rule_id ∈ seen ∨ x.rule_id ∈ l.map (fun y => y.rule_id) then [] else [x]) := by
  induction l generalizing seen with
  | nil =>
    by_cases hx : x.rule_id ∈ seen <;> simp [remove_dupes, hx]
  | cons y rest ih =>
    simp only [List.cons_append, remove_dupes, List.append_eq]
    by_cases hy : y.rule_id ∈ seen
    · rw [if_pos hy, if_pos hy, ih]
      have hcond : (x.rule_id ∈ seen ∨ x.rule_id ∈ rest.map (fun y => y.rule_id)) ↔
          (x.rule_id ∈ seen ∨ x.rule_id ∈ (y :: rest).map (fun y => y.rule_id)) := by
        simp only [List.map_cons, List.mem_cons]
        constructor
        · rintro (h | h)
          · exact Or.inl h
          · exact Or.inr (Or.inr h)
        · rintro (h | h | h)
          · exact Or.inl h
          · exact Or.inl (h ▸ hy)
          · exact Or.inr h
      rw [if_congr hcond rfl rfl]
    · rw [if_neg hy, if_neg hy, ih, List.cons_append]
      have hcond : (x.rule_id ∈ y.rule_id :: seen ∨ x.rule_id ∈ rest.map (fun y => y.rule_id)) ↔
          (x.rule_id ∈ seen ∨ x.rule_id ∈ (y :: rest).map (fun y => y.rule_id)) := by
        simp only [List.map_cons, List.mem_cons]
        constructor
        · rintro ((h | h) | h)
          · exact Or.inr (Or.inl h)
          · exact Or.inl h
          · exact Or.inr (Or.inr h)
        · rintro (h | h | h)
          · exact Or.inl (Or.inr h)
          · exact Or.inl (Or.inl h)
          · exact Or.inr h
      rw [if_congr hcond rfl rfl]

theorem keepLast_eq_remove_dupes (xs : List RuleData) :
    (remove_dupes xs.reverse []).reverse = keepLastOccurrences xs := by
  induction xs with
  | nil => rfl
  | cons x rest ih =>
    simp only [List.reverse_cons, keepLastOccurrences]
    rw [remove_dupes_append x rest.reverse []]
    have hm : (x.rule_id ∈ ([] : List String) ∨
        x.rule_id ∈ rest.reverse.map (fun y => y.rule_id)) ↔
          x.rule_id ∈ rest.map (fun y => y.rule_id) := by
      simp [List.map_reverse, List.mem_reverse]
    by_cases hx : x.rule_id ∈ rest.map (fun y => y.rule_id)
    · rw [if_pos (hm.mpr hx), if_pos hx]
      simpa using ih
    · rw [if_neg (fun hc => hx (hm.mp hc)), if_neg hx]
      simp only [List.reverse_append, List.reverse_cons, List.reverse_nil, List.nil_append,
        List.singleton_append]
      rw [ih]

theorem keepLast_sublist (xs : List RuleData) :
    (keepLastOccurrences xs).Sublist xs := by
  induction xs with
  | nil => simp [keepLastOccurrences]
  | cons x rest ih =>
    simp only [keepLastOccurrences]
    by_cases hx : x.rule_id ∈ rest.map (fun y => y.rule_id)
    · rw [if_pos hx]
      exact ih.trans (List.sublist_cons_self x rest)
    · rw [if_neg hx]
      exact ih.cons₂ x

theorem keepLast_ids_nodup (xs : List RuleData) :
    ((keepLastOccurrences xs).map (fun r => r.rule_id)).Nodup := by
  induction xs with
  | nil => simp [keepLastOccurrences]
  | cons x rest ih =>
    simp only [keepLastOccurrences]
    by_cases hx : x.rule_id ∈ rest.map (fun y => y.rule_id)
    · rw [if_pos hx]; exact ih
    · rw [if_neg hx]
      simp only [List.map_cons, List.nodup_cons]
      refine ⟨fun hc => hx ?_, ih⟩
      exact ((keepLast_sublist rest).map (fun r => r.rule_id)).subset hc

theorem keepLast_of_nodup (xs : List RuleData)
    (h : (xs.map (fun r => r.rule_id)).Nodup) : keepLastOccurrences xs = xs := by
  induction xs with
  | nil => rfl
  | cons x rest ih =>
    simp only [List.map_cons, List.nodup_cons] at h
    simp only [keepLastOccurrences]
    rw [if_neg h.1, ih h.2]

mutual

theorem rules_eq_resolveSpec : ∀ rs : RuleSet, RuleSet.rules rs = resolveSpec rs
  | .mk i d items => by
    rw [RuleSet.rules, resolveSpec, flatten_eq_resolveSpecFlatten items,
      keepLast_eq_remove_dupes]

theorem flatten_eq_resolveSpecFlatten :
    ∀ l : List RuleSetItem, flatten_items l = resolveSpecFlatten l
  | [] => rfl
  | .rule r :: rest => by
    rw [flatten_items, resolveSpecFlatten, flatten_eq_resolveSpecFlatten rest]
  | .set s :: rest => by
    rw [flatten_items, resolveSpecFlatten, flatten_eq_resolveSpecFlatten rest,
      rules_eq_resolveSpec s]

end

theorem rules_ids_nodup (rs : RuleSet) :
    ((RuleSet.rules rs).map (fun r => r.rule_id)).Nodup := by
  obtain ⟨i, d, items⟩ := rs
  rw [rules_eq_resolveSpec (.mk i d items), resolveSpec]
  exact keepLast_ids_nodup _

/-! ### Lemmas about the exclusion dictionary and `filter_exclusive_rules` -/

theorem mem_dictGetD_dictAdd (d : List (String × List String)) (k v k' x : String) :
    x ∈ dictGetD (dictAdd d k v) k' ↔ ((k' = k ∧ x = v) ∨ x ∈ dictGetD d k') := by
  induction d with
  | nil =>
    simp only [dictAdd, dictGetD]
    by_cases hk : k' = k <;> simp [hk]
  | cons p rest ih =>
    obtain ⟨k2, vs⟩ := p
    simp only [dictAdd]
    by_cases hk : k = k2
    · subst hk
      by_cases hk' : k' = k <;> by_cases hv : v ∈ vs <;>
        simp [dictGetD, hk', hv] <;> aesop
    · by_cases hk' : k' = k2 <;> simp [dictGetD, hk, hk', ih] <;> aesop

theorem mem_dictGetD_inner_foldl (k0 : String) (ids : List String)
    (d : List (String × List String)) (k x : String) :
    x ∈ dictGetD (ids.foldl (fun d id => dictAdd (dictAdd d k0 id) id k0) d) k ↔
      (x ∈ dictGetD d k ∨ ∃ id ∈ ids, (k = k0 ∧ x = id) ∨ (k = id ∧ x = k0)) := by
  induction ids generalizing d with
  | nil => simp
  | cons id rest ih =>
    simp only [List.foldl_cons]
    rw [ih, mem_dictGetD_dictAdd, mem_dictGetD_dictAdd]
    simp only [List.mem_cons, exists_eq_or_imp]
    aesop

theorem mem_dictGetD_foldl_rules (rules : List RuleData)
    (d : List (String × List String)) (k x : String) :
    x ∈ dictGetD (rules.foldl
        (fun d rule => rule.mutually_exclusive_with.foldl
          (fun d id => dictAdd (dictAdd d rule.rule_id id) id rule.rule_id) d) d) k ↔
      (x ∈ dictGetD d k ∨ mutexRel rules k x) := by
  induction rules generalizing d with
  | nil => simp [mutexRel]
  | cons r rest ih =>
    simp only [List.foldl_cons]
    rw [ih, mem_dictGetD_inner_foldl]
    simp only [mutexRel, List.mem_cons]
    constructor
    · rintro ((h | ⟨id, hid, (⟨rfl, rfl⟩ | ⟨rfl, rfl⟩)⟩) | ⟨r2, hr2, h2⟩)
      · exact Or.inl h
      · exact Or.inr ⟨r, Or.inl rfl, Or.inl ⟨rfl, hid⟩⟩
      · exact Or.inr ⟨r, Or.inl rfl, Or.inr ⟨rfl, hid⟩⟩
      · exact Or.inr ⟨r2, Or.inr hr2, h2⟩
    · rintro (h | ⟨r2, (rfl | hr2), h2⟩)
      · exact Or.inl (Or.inl h)
      · rcases h2 with ⟨rfl, hx⟩ | ⟨rfl, hk⟩
        · exact Or.inl (Or.inr ⟨x, hx, Or.inl ⟨rfl, rfl⟩⟩)
        · exact Or.inl (Or.inr ⟨k, hk, Or.inr ⟨rfl, rfl⟩⟩)
      · exact Or.inr ⟨r2, hr2, h2⟩

theorem mem_dictGetD_buildMutexDict (all_rules : List RuleData) (k x : String) :
    x ∈ dictGetD (buildMutexDict all_rules) k ↔ mutexRel all_rules k x := by
  rw [buildMutexDict, mem_dictGetD_foldl_rules]
  simp [dictGetD]

theorem mutexRel_comm (all_rules : List RuleData) (a b : String) :
    mutexRel all_rules a b ↔ mutexRel all_rules b a := by
  simp only [mutexRel]
  constructor <;> (rintro ⟨r, hr, h | h⟩)
  · exact ⟨r, hr, Or.inr h⟩
  · exact ⟨r, hr, Or.inl h⟩
  · exact ⟨r, hr, Or.inr h⟩
  · exact ⟨r, hr, Or.inl h⟩

theorem filter_exclusive_sublist (d : List (String × List String))
    (l : List RuleData) (excluded : List String) :
    (filter_exclusive_rules d l excluded).Sublist l := by
  induction l generalizing excluded with
  | nil => simp [filter_exclusive_rules]
  | cons r rest ih =>
    simp only [filter_exclusive_rules]
    by_cases hr : r.rule_id ∈ excluded
    · rw [if_pos hr]
      exact (ih excluded).trans (List.sublist_cons_self r rest)
    · rw [if_neg hr]
      exact (ih _).cons₂ r

theorem filter_exclusive_invariant (d : List (String × List String))
    (l : List RuleData) (excluded : List String) :
    (∀ y ∈ filter_exclusive_rules d l excluded, y.rule_id ∉ excluded) ∧
    (filter_exclusive_rules d l excluded).Pairwise
      (fun a b => b.rule_id ∉ dictGetD d a.rule_id) := by
  induction l generalizing excluded with
  | nil => simp [filter_exclusive_rules]
  | cons r rest ih =>
    simp only [filter_exclusive_rules]
    by_cases hr : r.rule_id ∈ excluded
    · rw [if_pos hr]
      exact ih excluded
    · rw [if_neg hr]
      obtain ⟨hmem, hpw⟩ := ih (dictGetD d r.rule_id ++ excluded)
      refine ⟨?_, ?_⟩
      · intro y hy
        rcases List.mem_cons.mp hy with rfl | hy
        · exact hr
        · intro hc
          exact hmem y hy (List.mem_append_right _ hc)
      · refine List.Pairwise.cons ?_ hpw
        intro b hb
        intro hc
        exact hmem b hb (List.mem_append_left _ hc)

theorem effectiveOf_sublist (all_rules : List RuleData) :
    (effectiveOf all_rules).Sublist all_rules := by
  rw [effectiveOf]
  have h := (filter_exclusive_sublist (buildMutexDict all_rules) all_rules.reverse []).reverse
  simpa using h

theorem effectiveOf_pairwise_not_mutex (all_rules : List RuleData) :
    (effectiveOf all_rules).Pairwise
      (fun r1 r2 => ¬ mutexRel all_rules r1.rule_id r2.rule_id) := by
  rw [effectiveOf]
  rw [List.pairwise_reverse]
  refine ((filter_exclusive_invariant (buildMutexDict all_rules)
    all_rules.reverse []).2).imp ?_
  intro a b hab
  intro hc
  apply hab
  rw [mem_dictGetD_buildMutexDict]
  rw [mutexRel_comm]
  exact hc

/-! ### Self-exclusion is inert (for claim C10) -/

/-- Drop a rule's own identifier from its `mutually_exclusive_with` set,
leaving everything else unchanged. -/
def removeSelfExclusion (r : RuleData) : RuleData :=
  { r with mutually_exclusive_with :=
      r.mutually_exclusive_with.filter (fun id => id != r.rule_id) }

theorem removeSelfExclusion_rule_id (r : RuleData) :
    (removeSelfExclusion r).rule_id = r.rule_id := rfl

theorem mem_removeSelfExclusion (r : RuleData) (x : String) :
    x ∈ (removeSelfExclusion r).mutually_exclusive_with ↔
      (x ∈ r.mutually_exclusive_with ∧ x ≠ r.rule_id) := by
  simp [removeSelfExclusion, List.mem_filter]

theorem mutexRel_map_removeSelf (all_rules : List RuleData) (a b : String)
    (hab : a ≠ b) :
    mutexRel (all_rules.map removeSelfExclusion) a b ↔ mutexRel all_rules a b := by
  simp only [mutexRel, List.mem_map]
  constructor
  · rintro ⟨r, ⟨r0, hr0, rfl⟩, h | h⟩
    · rw [removeSelfExclusion_rule_id, mem_removeSelfExclusion] at h
      exact ⟨r0, hr0, Or.inl ⟨h.1, h.2.1⟩⟩
    · rw [removeSelfExclusion_rule_id, mem_removeSelfExclusion] at h
      exact ⟨r0, hr0, Or.inr ⟨h.1, h.2.1⟩⟩
  · rintro ⟨r, hr, h | h⟩
    · refine ⟨removeSelfExclusion r, ⟨r, hr, rfl⟩, Or.inl ?_⟩
      rw [removeSelfExclusion_rule_id, mem_removeSelfExclusion]
      exact ⟨h.1, h.2, fun hc => hab ((h.1 ▸ hc) ▸ rfl)⟩
    · refine ⟨removeSelfExclusion r, ⟨r, hr, rfl⟩, Or.inr ?_⟩
      rw [removeSelfExclusion_rule_id, mem_removeSelfExclusion]
      exact ⟨h.1, h.2, fun hc => hab (((h.1 ▸ hc) ▸ rfl : a = b))⟩

theorem filter_exclusive_map (d1 d2 : List (String × List String))
    (f : RuleData → RuleData) (hf : ∀ r, (f r).rule_id = r.rule_id)
    (hd : ∀ a b, a ≠ b → (a ∈ dictGetD d1 b ↔ a ∈ dictGetD d2 b)) :
    ∀ (l : List RuleData) (exc1 exc2 : List String),
    (l.map (fun r => r.rule_id)).Nodup →
    (∀ a, a ∈ l.map (fun r => r.rule_id) → (a ∈ exc1 ↔ a ∈ exc2)) →
    filter_exclusive_rules d2 (l.map f) exc2 =
      (filter_exclusive_rules d1 l exc1).map f
  | [], _, _, _, _ => rfl
  | r :: rest, exc1, exc2, hnd, hexc => by
    simp only [List.map_cons, filter_exclusive_rules, hf r]
    have hid : r.rule_id ∈ (r :: rest).map (fun r => r.rule_id) := by simp
    simp only [List.map_cons, List.nodup_cons] at hnd
    by_cases hr : r.rule_id ∈ exc1
    · rw [if_pos ((hexc _ hid).mp hr), if_pos hr]
      exact filter_exclusive_map d1 d2 f hf hd rest exc1 exc2 hnd.2
        (fun a ha => hexc a (by simp [ha]))
    · rw [if_neg (fun hc => hr ((hexc _ hid).mpr hc)), if_neg hr, List.map_cons]
      refine congrArg (f r :: ·) ?_
      refine filter_exclusive_map d1 d2 f hf hd rest _ _ hnd.2 ?_
      intro a ha
      have hane : a ≠ r.rule_id := fun hc => hnd.1 (hc ▸ ha)
      simp only [List.mem_append]
      exact or_congr (hd a r.rule_id hane) (hexc a (by simp [ha]))

theorem effectiveOf_map_removeSelf (all_rules : List RuleData)
    (hnd : (all_rules.map (fun r => r.rule_id)).Nodup) :
    effectiveOf (all_rules.map removeSelfExclusion) =
      (effectiveOf all_rules).map removeSelfExclusion := by
  rw [effectiveOf, effectiveOf, ← List.map_reverse]
  rw [filter_exclusive_map (buildMutexDict all_rules)
    (buildMutexDict (all_rules.map removeSelfExclusion)) removeSelfExclusion
    removeSelfExclusion_rule_id
    (fun a b hab => by
      rw [mem_dictGetD_buildMutexDict, mem_dictGetD_buildMutexDict,
        mutexRel_map_removeSelf all_rules b a (fun hc => hab hc.symm)])
    all_rules.reverse [] []
    (by simpa [List.map_reverse, List.nodup_reverse] using hnd)
    (fun a _ => Iff.rfl)]
  rw [List.map_reverse]

/-! ### Claim C4 -/

/-- C4: for every RuleSet tree, `rules()` returns the depth-first,
child-list-order concatenation of its own rules and the already-resolved
sequences of nested RuleSets, deduplicated by rule identifier with
last-occurrence-wins and the kept rules in their original relative order;
consequently the result has at most one entry per rule identifier, and for
a RuleSet whose flattened rules have pairwise distinct identifiers it is
exactly the rules in insertion order. -/
theorem C4_resolve_flattening_dedup (i d : String) (items : List RuleSetItem) :
    RuleSet.rules (.mk i d items) = keepLastOccurrences (resolveSpecFlatten items) ∧
    ((RuleSet.rules (.mk i d items)).map (fun r => r.rule_id)).Nodup ∧
    (((resolveSpecFlatten items).map (fun r => r.rule_id)).Nodup →
      RuleSet.rules (.mk i d items) = resolveSpecFlatten items) := by
  have h1 : RuleSet.rules (.mk i d items) =
      keepLastOccurrences (resolveSpecFlatten items) := by
    rw [rules_eq_resolveSpec (.mk i d items), resolveSpec]
  refine ⟨h1, ?_, fun hnd => ?_⟩
  · rw [h1]
    exact keepLast_ids_nodup _
  · rw [h1, keepLast_of_nodup _ hnd]

/-- A small concrete tree: one own rule and one nested set with a distinct
rule. -/
def c4Items : List RuleSetItem :=
  [.rule ⟨"R001", "a", []⟩, .set (.mk "S" "nested" [.rule ⟨"R002", "b", []⟩])]

theorem C4_resolve_flattening_dedup_witness :
    ((resolveSpecFlatten c4Items).map (fun r => r.rule_id)).Nodup ∧
    (RuleSet.rules (.mk "RS" "" c4Items) =
        keepLastOccurrences (resolveSpecFlatten c4Items) ∧
      ((RuleSet.rules (.mk "RS" "" c4Items)).map (fun r => r.rule_id)).Nodup ∧
      RuleSet.rules (.mk "RS" "" c4Items) = resolveSpecFlatten c4Items) :=
  ⟨by decide,
    (C4_resolve_flattening_dedup "RS" "" c4Items).1,
    (C4_resolve_flattening_dedup "RS" "" c4Items).2.1,
    (C4_resolve_flattening_dedup "RS" "" c4Items).2.2 (by decide)⟩

/-! ### Claim C5 -/

/-- A nested rule set defining `R1`, nested *before* the ancestor's own
definition of `R1` in the parent's child list. -/
def c5parent : RuleSet :=
  .mk "P" "" [.set (.mk "C" "" [.rule ⟨"R1", "descendant", []⟩]),
    .rule ⟨"R1", "ancestor", []⟩]

/-- C5 counterexample: when the nested RuleSet precedes the ancestor's own
definition in the child list, `rules()` yields the ancestor's instance, not
the descendant's — refuting "the instance yielded is the descendant's,
regardless of where the two definitions sit in the child-list order". -/
theorem C5_counterexample_ancestor_wins :
    RuleSet.rules c5parent = [⟨"R1", "ancestor", []⟩] ∧
    RuleData.mk "R1" "descendant" [] ∉ RuleSet.rules c5parent := by decide

/-- C5 (amended): `rules()` keeps the rightmost occurrence of each
identifier in the depth-first flattening. In particular, when the
ancestor's own rule precedes the nested RuleSet that also defines its
identifier, the whole resolution collapses to the nested set's resolved
sequence: the descendant's instance is the one yielded. -/
theorem C5_descendant_wins (i d : String) (ra : RuleData) (child : RuleSet)
    (h : ra.rule_id ∈ (RuleSet.rules child).map (fun r => r.rule_id)) :
    RuleSet.rules (.mk i d [.rule ra, .set child]) = RuleSet.rules child := by
  have hflat : flatten_items [.rule ra, .set child] = ra :: RuleSet.rules child := by
    simp [flatten_items]
  rw [RuleSet.rules, hflat, keepLast_eq_remove_dupes, keepLastOccurrences, if_pos h,
    keepLast_of_nodup _ (rules_ids_nodup child)]

theorem C5_descendant_wins_witness :
    (RuleData.mk "R1" "ancestor" []).rule_id ∈
      (RuleSet.rules (.mk "C" "" [.rule ⟨"R1", "descendant", []⟩])).map
        (fun r => r.rule_id) ∧
    RuleSet.rules (.mk "P" "" [.rule ⟨"R1", "ancestor", []⟩,
        .set (.mk "C" "" [.rule ⟨"R1", "descendant", []⟩])]) =
      RuleSet.rules (.mk "C" "" [.rule ⟨"R1", "descendant", []⟩]) :=
  ⟨by decide,
    C5_descendant_wins "P" "" ⟨"R1", "ancestor", []⟩
      (.mk "C" "" [.rule ⟨"R1", "descendant", []⟩]) (by decide)⟩

/-! ### Claim C6 -/

/-- A flat rule set with an exclusion chain: `A` excludes `B`, `B` excludes
`C`, `C` declares nothing. -/
def c6chain : RuleSet :=
  .mk "RS" "" [.rule ⟨"A", "", ["B"]⟩, .rule ⟨"B", "", ["C"]⟩, .rule ⟨"C", "", []⟩]

/-- C6 counterexample: in `c6chain` the rules `A` and `B` are mutually
exclusive in declared direction and `B` occurs later in the resolved
sequence, yet `effective_rules()` drops `B` (it is excluded by the still
later `C`) and keeps the earlier `A` — refuting "whenever two rules of the
resolved sequence are mutually exclusive ... the one occurring later in
the resolved sequence survives and the earlier one is dropped". -/
theorem C6_counterexample_later_rule_dropped :
    mutexRel (RuleSet.rules c6chain) "A" "B" ∧
    RuleSet.rules c6chain =
      [⟨"A", "", ["B"]⟩, ⟨"B", "", ["C"]⟩, ⟨"C", "", []⟩] ∧
    RuleSet.effective_rules c6chain = [⟨"A", "", ["B"]⟩, ⟨"C", "", []⟩] := by
  decide

/-- C6 (amended): `effective_rules()` never yields two rules related by the
symmetric closure of the declared exclusions — whenever two rules of the
resolved sequence are mutually exclusive in either declared direction, at
most one of them survives (so the earlier one is dropped whenever the later
one is kept) — and the surviving rules are a subsequence of the resolved
sequence, i.e. they keep their original relative order. -/
theorem C6_effective_no_mutex_pair (rs : RuleSet) :
    (RuleSet.effective_rules rs).Pairwise
      (fun r1 r2 => ¬ mutexRel (RuleSet.rules rs) r1.rule_id r2.rule_id) ∧
    (RuleSet.effective_rules rs).Sublist (RuleSet.rules rs) := by
  constructor
  · exact effectiveOf_pairwise_not_mutex (RuleSet.rules rs)
  · exact effectiveOf_sublist (RuleSet.rules rs)

/-! ### Claim C10 -/

/-- C10: a rule id appearing in its own `mutually_exclusive_with` set is
inert: deleting every self-reference from the exclusion sets of the
resolved rules changes nothing about which rules `effective_rules()` keeps
— the filtered run produces exactly the same survivors (element-wise, up to
the deleted self-entries), and in particular the same rule identifiers. So
a self-excluding rule is not dropped on account of its self-exclusion and
no other rule's survival is affected by it. -/
theorem C10_self_exclusion_noop (rs : RuleSet) :
    effectiveOf ((RuleSet.rules rs).map removeSelfExclusion) =
      (RuleSet.effective_rules rs).map removeSelfExclusion ∧
    (effectiveOf ((RuleSet.rules rs).map removeSelfExclusion)).map
        (fun r => r.rule_id) =
      (RuleSet.effective_rules rs).map (fun r => r.rule_id) := by
  have h := effectiveOf_map_removeSelf (RuleSet.rules rs) (rules_ids_nodup rs)
  refine ⟨h, ?_⟩
  rw [h, List.map_map]
  rfl

/-! ### Execution engine (`linter.py`)

The engine is embedded with Python exceptions modelled by `PyResult`
(`ok` a returned value, `exc` a raised exception's text), console reads by
an oracle `inputs : Nat → String` consumed at an explicit prompt counter,
and the calls the engine makes recorded in an `Event` trace. -/

/-- Outcome of a Python call: a value or a raised exception. -/
inductive PyResult (α : Type) where
  | ok : α → PyResult α
  | exc : String → PyResult α
  deriving DecidableEq, Repr

/-- Model of enum `RuleResult` (`rules/base.py`). -/
inductive RuleResult where
  | PASSED
  | FAILED
  | SKIPPED
  deriving DecidableEq, Repr

/-- Model of dataclass `RuleCheckResult` (`rules/base.py`). -/
structure RuleCheckResult where
  result : RuleResult
  message : String
  fix_available : Bool := false
  fix_description : Option String := none
  deriving DecidableEq, Repr

/-- A rule as the engine sees it: `check n` is the behaviour of the n-th
`check` invocation on this rule (the engine calls it at most twice per
repository pass: the initial check `n = 1` and the post-fix recheck
`n = 2`), `fix` the behaviour of the single possible `fix` call. -/
structure ExecRule where
  rule_id : String
  check : Nat → PyResult RuleCheckResult
  fix : PyResult (Bool × String)

/-- The three run flags stored by `Linter.__init__` (`linter.py` lines
21-33): `_dry_run`, `_non_interactive` and `_fix`. -/
structure LinterFlags where
  dry_run : Bool
  non_interactive : Bool
  fix : Bool
  deriving DecidableEq, Repr

/-- Observable calls the engine makes while processing one rule. -/
inductive Event where
  | checkCall (rule_id : String) (n : Nat)
  | promptCall (rule_id : String)
  | fixCall (rule_id : String)
  deriving DecidableEq, Repr

/-- `response.lower()` of the Python source, over the character data. -/
def pyLower (s : String) : String := String.mk (s.data.map Char.toLower)

/-- What one iteration of the rule loop produces: the final recorded
result for the rule (`results[rule.rule_id]` after the iteration), the
trace of check/prompt/fix calls, and how many console reads were
consumed. -/
structure RuleOutcome where
  result : RuleCheckResult
  events : List Event
  prompts : Nat
  deriving DecidableEq, Repr

/-- One iteration of the per-rule loop of `Linter.check_repository`
(`linter.py` lines 91-151): initial `check` (an exception is converted to
a synthesized `FAILED` result); then, whenever `result.fix_available` is
set and the run is not a dry run, prompt unless `_non_interactive`, and on
confirmation call `fix`; when `fix` returns success, `check` again and
record the recheck result; exceptions from `fix` or the recheck are caught
and leave the previously recorded result in place. -/
def process_rule (cfg : LinterFlags) (rule : ExecRule) (inputs : Nat → String)
    (k : Nat) : RuleOutcome :=
  let result : RuleCheckResult :=
    match rule.check 1 with
    | .ok r => r
    | .exc e =>
      { result := .FAILED, message := "Rule execution failed: " ++ e,
        fix_available := false, fix_description := none }
  let ev0 : List Event := [.checkCall rule.rule_id 1]
  if result.fix_available then
    if cfg.dry_run then
      { result := result, events := ev0, prompts := 0 }
    else
      let promptState : Bool × List Event × Nat :=
        if cfg.non_interactive then (true, [], 0)
        else
          let response := pyLower (inputs k)
          (response == "y" || response == "yes", [.promptCall rule.rule_id], 1)
      let should_fix := promptState.1
      let ev1 := promptState.2.1
      let used := promptState.2.2
      if should_fix then
        match rule.fix with
        | .exc _ =>
          { result := result, events := ev0 ++ ev1 ++ [.fixCall rule.rule_id],
            prompts := used }
        | .ok (success, _) =>
          if success then
            match rule.check 2 with
            | .ok r2 =>
              { result := r2,
                events := ev0 ++ ev1 ++
                  [.fixCall rule.rule_id, .checkCall rule.rule_id 2],
                prompts := used }
            | .exc _ =>
              { result := result,
                events := ev0 ++ ev1 ++
                  [.fixCall rule.rule_id, .checkCall rule.rule_id 2],
                prompts := used }
          else
            { result := result, events := ev0 ++ ev1 ++ [.fixCall rule.rule_id],
              prompts := used }
      else
        { result := result, events := ev0 ++ ev1, prompts := used }
  else
    { result := result, events := ev0, prompts := 0 }

/-- The rule loop of `Linter.check_repository`, threading the console-read
counter; returns the recorded per-rule results in iteration order, the
event trace, and the total number of console reads. -/
def check_repository_go (cfg : LinterFlags) (inputs : Nat → String) :
    List ExecRule → Nat → List (String × RuleCheckResult) × List Event × Nat
  | [], _ => ([], [], 0)
  | rule :: rest, k =>
    let o := process_rule cfg rule inputs k
    let rec_rest := check_repository_go cfg inputs rest (k + o.prompts)
    ((rule.rule_id, o.result) :: rec_rest.1, o.events ++ rec_rest.2.1,
      o.prompts + rec_rest.2.2)

/-- Model of `Linter.check_repository` (`linter.py` lines 78-153) applied
to the resolved rule list of the chosen rule set. -/
def check_repository (cfg : LinterFlags) (rules : List ExecRule)
    (inputs : Nat → String) : List (String × RuleCheckResult) × List Event × Nat :=
  check_repository_go cfg inputs rules 0

/-! ### Engine lemmas -/

theorem process_rule_check_exc (cfg : LinterFlags) (rule : ExecRule)
    (inputs : Nat → String) (k : Nat) (e : String) (h : rule.check 1 = .exc e) :
    process_rule cfg rule inputs k =
      ⟨⟨.FAILED, "Rule execution failed: " ++ e, false, none⟩,
        [.checkCall rule.rule_id 1], 0⟩ := by
  simp [process_rule, h]

theorem check_repository_go_length (cfg : LinterFlags) (inputs : Nat → String) :
    ∀ (rules : List ExecRule) (k : Nat),
      (check_repository_go cfg inputs rules k).1.length = rules.length
  | [], _ => rfl
  | rule :: rest, k => by
    simp [check_repository_go, check_repository_go_length cfg inputs rest]

theorem check_repository_go_getElem (cfg : LinterFlags) (inputs : Nat → String) :
    ∀ (rules : List ExecRule) (k i : Nat) (hi : i < rules.length),
      ∃ k2, (check_repository_go cfg inputs rules k).1[i]? =
        some ((rules.get ⟨i, hi⟩).rule_id,
          (process_rule cfg (rules.get ⟨i, hi⟩) inputs k2).result)
  | [], _, i, hi => by simp at hi
  | rule :: rest, k, 0, hi => by
    refine ⟨k, ?_⟩
    simp [check_repository_go]
  | rule :: rest, k, i + 1, hi => by
    have hi2 : i < rest.length := by simpa using hi
    obtain ⟨k2, hk2⟩ := check_repository_go_getElem cfg inputs rest
      (k + (process_rule cfg rule inputs k).prompts) i hi2
    refine ⟨k2, ?_⟩
    simpa [check_repository_go] using hk2

theorem process_rule_dry_run_events (cfg : LinterFlags) (rule : ExecRule)
    (inputs : Nat → String) (k : Nat) (h : cfg.dry_run = true) :
    (process_rule cfg rule inputs k).events = [.checkCall rule.rule_id 1] := by
  simp only [process_rule, h]
  cases hc : rule.check 1 <;> split <;> simp

theorem check_repository_go_dry_run_events (cfg : LinterFlags)
    (inputs : Nat → String) (h : cfg.dry_run = true) :
    ∀ (rules : List ExecRule) (k : Nat),
      (check_repository_go cfg inputs rules k).2.1 =
        rules.map (fun r => .checkCall r.rule_id 1)
  | [], _ => rfl
  | rule :: rest, k => by
    simp [check_repository_go, process_rule_dry_run_events cfg rule inputs k h,
      check_repository_go_dry_run_events cfg inputs h rest]

/-! ### Claim C7 -/

/-- C7: for every rule of a repository pass whose `check` raises, the
engine records for that rule a `FAILED` result whose message embeds the
exception text and whose `fix_available` is false, and every rule of the
pass still gets processed and recorded (the exception never escapes the
per-rule loop). -/
theorem C7_check_exception_isolated (cfg : LinterFlags) (rules : List ExecRule)
    (inputs : Nat → String) (i : Nat) (hi : i < rules.length) (e : String)
    (hc : (rules.get ⟨i, hi⟩).check 1 = .exc e) :
    (check_repository cfg rules inputs).1.length = rules.length ∧
    (check_repository cfg rules inputs).1[i]? =
      some ((rules.get ⟨i, hi⟩).rule_id,
        ⟨.FAILED, "Rule execution failed: " ++ e, false, none⟩) := by
  refine ⟨check_repository_go_length cfg inputs rules 0, ?_⟩
  obtain ⟨k2, hk2⟩ := check_repository_go_getElem cfg inputs rules 0 i hi
  rw [check_repository, hk2, process_rule_check_exc cfg _ inputs k2 e hc]

/-- A rule whose `check` always raises, followed by a healthy rule. -/
def c7raiser : ExecRule := ⟨"R000", fun _ => .exc "boom", .exc "no fix"⟩

def c7ok : ExecRule :=
  ⟨"R001", fun _ => .ok ⟨.PASSED, "fine", false, none⟩, .exc "no fix"⟩

theorem C7_check_exception_isolated_witness :
    c7raiser.check 1 = .exc "boom" ∧
    ((check_repository ⟨false, false, false⟩ [c7raiser, c7ok]
        (fun _ => "")).1.length = 2 ∧
      (check_repository ⟨false, false, false⟩ [c7raiser, c7ok]
          (fun _ => "")).1[0]? =
        some ("R000",
          ⟨.FAILED, "Rule execution failed: " ++ "boom", false, none⟩)) :=
  ⟨rfl, C7_check_exception_isolated ⟨false, false, false⟩ [c7raiser, c7ok]
    (fun _ => "") 0 (by decide) "boom" rfl⟩

/-! ### Claim C9 -/

/-- C9: when the run's dry-run flag is set, the engine never invokes `fix`
for any rule — the event trace of a dry run consists of the initial checks
only, so in particular it contains no `fixCall`. -/
theorem C9_dry_run_never_fixes (cfg : LinterFlags) (rules : List ExecRule)
    (inputs : Nat → String) (h : cfg.dry_run = true) (rid : String) :
    Event.fixCall rid ∉ (check_repository cfg rules inputs).2.1 := by
  rw [check_repository, check_repository_go_dry_run_events cfg inputs h rules 0]
  intro hc
  obtain ⟨r, -, hr⟩ := List.mem_map.mp hc
  exact Event.noConfusion hr

/-- A failing rule advertising an available fix. -/
def c9fixable : ExecRule :=
  ⟨"R001", fun _ => .ok ⟨.FAILED, "bad", true, some "can fix"⟩, .ok (true, "done")⟩

theorem C9_dry_run_never_fixes_witness :
    (LinterFlags.mk true true true).dry_run = true ∧
    Event.fixCall "R001" ∉
      (check_repository ⟨true, true, true⟩ [c9fixable] (fun _ => "y")).2.1 :=
  ⟨rfl, C9_dry_run_never_fixes ⟨true, true, true⟩ [c9fixable] (fun _ => "y")
    rfl "R001"⟩

/-! ### Claim C1 -/

/-- A rule whose check fails with `fix_available = true`. -/
def c1fixable : ExecRule :=
  ⟨"R001", fun _ => .ok ⟨.FAILED, "Rule failed but can be fixed", true,
    some "This can be fixed automatically"⟩, .ok (true, "fixed")⟩

/-- A rule whose check *passes* yet still advertises `fix_available`. -/
def c1passedFixable : ExecRule :=
  ⟨"R002", fun _ => .ok ⟨.PASSED, "fine", true, some "cosmetic fix"⟩,
    .ok (true, "fixed")⟩

/-- C1 evaluated on the code: the engine's fix flow is guarded only by
`result.fix_available` (`linter.py` line 116) — the stored `_fix` flag is
never consulted and the check outcome need not be `FAILED`. With fixing not
requested (`fix = false`) and `non_interactive = true`, `fix` is still
invoked; with `fix = false` and `non_interactive = false`, the user is still
prompted (contradicting the repository's own test
`test_lint_repositories_no_fix_prompt_without_fix_flag`); and a `PASSED`
result with `fix_available = true` also triggers `fix`. -/
theorem C1_fix_called_without_request :
    (LinterFlags.mk false true false).fix = false ∧
    Event.fixCall "R001" ∈
      (check_repository ⟨false, true, false⟩ [c1fixable] (fun _ => "")).2.1 ∧
    Event.promptCall "R001" ∈
      (check_repository ⟨false, false, false⟩ [c1fixable] (fun _ => "n")).2.1 ∧
    Event.fixCall "R002" ∈
      (check_repository ⟨false, true, true⟩ [c1passedFixable] (fun _ => "")).2.1 := by
  decide

/-! ### Claim C2 -/

/-- A rule whose initial check fails fixable, whose fix succeeds, and whose
recheck raises — the scenario of
`test_lint_repositories_recheck_error`. -/
def c2recheckRaises : ExecRule :=
  ⟨"R001",
    fun n => if n = 1 then
        .ok ⟨.FAILED, "Rule failed but can be fixed", true,
          some "This can be fixed automatically"⟩
      else .exc "Error during recheck after fix",
    .ok (true, "Mock fix applied")⟩

/-- C2 counterexample: `fix` returns success and the recheck raises, yet
the final recorded result for the rule is exactly the stale pre-fix
`FAILED` result — there is no distinct recheck-error state, refuting "or a
distinct recheck-error state if it raises — never the stale pre-fix
`Failed` result". -/
theorem C2_counterexample_stale_result :
    c2recheckRaises.fix = .ok (true, "Mock fix applied") ∧
    c2recheckRaises.check 2 = .exc "Error during recheck after fix" ∧
    (check_repository ⟨false, true, true⟩ [c2recheckRaises] (fun _ => "")).1 =
      [("R001", ⟨.FAILED, "Rule failed but can be fixed", true,
        some "This can be fixed automatically"⟩)] := by
  decide

/-- C2 (amended): whenever `fix` returns success, the engine immediately
rechecks by invoking `check` again; if the recheck returns a result, that
result is the final recorded one; if the recheck raises, the exception is
caught and the final recorded result remains the pre-fix check result. -/
theorem C2_recheck_result_recorded (cfg : LinterFlags) (rule : ExecRule)
    (inputs : Nat → String) (k : Nat) (r1 : RuleCheckResult) (m : String)
    (h1 : rule.check 1 = .ok r1) (h2 : r1.fix_available = true)
    (h3 : cfg.dry_run = false) (h4 : cfg.non_interactive = true)
    (h5 : rule.fix = .ok (true, m)) :
    Event.checkCall rule.rule_id 2 ∈ (process_rule cfg rule inputs k).events ∧
    (process_rule cfg rule inputs k).result =
      (match rule.check 2 with
       | .ok r2 => r2
       | .exc _ => r1) := by
  cases hre : rule.check 2 <;>
    simp [process_rule, h1, h2, h3, h4, h5, hre]

/-- A rule whose fix succeeds and whose recheck returns `PASSED`. -/
def c2recheckOk : ExecRule :=
  ⟨"R001",
    fun n => if n = 1 then .ok ⟨.FAILED, "bad", true, some "fix it"⟩
      else .ok ⟨.PASSED, "now ok", false, none⟩,
    .ok (true, "applied")⟩

theorem C2_recheck_result_recorded_witness :
    c2recheckOk.check 1 = .ok ⟨.FAILED, "bad", true, some "fix it"⟩ ∧
    (Event.checkCall "R001" 2 ∈
        (process_rule ⟨false, true, true⟩ c2recheckOk (fun _ => "") 0).events ∧
      (process_rule ⟨false, true, true⟩ c2recheckOk (fun _ => "") 0).result =
        (match c2recheckOk.check 2 with
         | .ok r2 => r2
         | .exc _ => ⟨.FAILED, "bad", true, some "fix it"⟩)) :=
  ⟨rfl, C2_recheck_result_recorded ⟨false, true, true⟩ c2recheckOk (fun _ => "")
    0 ⟨.FAILED, "bad", true, some "fix it"⟩ "applied" rfl rfl rfl rfl rfl⟩

/-! ### Claim C3 — `RuleContext` and `Linter.create_context` -/

/-- The declared fields of the `RuleContext` dataclass
(`rules/context.py` lines 8-17): only `repository`. -/
def ruleContextFields : List String := ["repository"]

/-- The keyword arguments `Linter.create_context` passes to the
`RuleContext` constructor (`linter.py` line 48):
`RuleContext(repository=repository, dry_run=self._dry_run)`. -/
def create_context_kwargs : List String := ["repository", "dry_run"]

/-- Python's dataclass-generated constructor accepts a keyword-argument
call iff every keyword names a declared field; an unknown keyword raises
`TypeError`. -/
def dataclassAcceptsKwargs (fields kwargs : List String) : Bool :=
  kwargs.all (fun kw => fields.contains kw)

/-- C3 evaluated on the code: the `RuleContext` dataclass declares no
`dry_run` field, so the keyword call made by `Linter.create_context` is
rejected (`TypeError`) instead of producing a context carrying the
repository handle and the run's dry-run flag. -/
theorem C3_create_context_rejects_dry_run :
    dataclassAcceptsKwargs ruleContextFields create_context_kwargs = false ∧
    "dry_run" ∉ ruleContextFields := by
  decide

/-! ### Claim C8 — rule-set selection and the batch loop -/

/-- A repository handle: only the name is observed by the selection and
batch code. -/
structure Repository where
  name : String
  deriving DecidableEq, Repr

/-- The configuration slice consumed by `Linter.get_rule_set_for_repository`
(`config.py`): `default_rule_set : str` (Python-falsy when empty) and the
`repository_rule_sets : Dict[str, str]` override map. -/
structure RepolintConfigModel where
  default_rule_set : String
  repository_rule_sets : List (String × String)

/-- Association-list lookup modelling the Python dict access
`repository_rule_sets[name]` guarded by `name in repository_rule_sets`. -/
def lookupStr : List (String × String) → String → Option String
  | [], _ => none
  | (k2, v) :: rest, k => if k = k2 then some v else lookupStr rest k

/-- The default-rule-set fallback of `get_rule_set_for_repository`
(`linter.py` lines 70-76): taken only when `default_rule_set` is truthy
(non-empty) and the registry resolves it. -/
def default_rule_set_fallback (config : RepolintConfigModel)
    (get_rule_set : String → Option (List ExecRule)) :
    Option (String × List ExecRule) :=
  if config.default_rule_set = "" then none
  else
    match get_rule_set config.default_rule_set with
    | some rs => some (config.default_rule_set, rs)
    | none => none

/-- Model of `Linter.get_rule_set_for_repository` (`linter.py` lines
50-76): repository-specific rule set first, then the configured default;
`none` when neither resolves in the registry. -/
def get_rule_set_for_repository (config : RepolintConfigModel)
    (get_rule_set : String → Option (List ExecRule)) (repository : Repository) :
    Option (String × List ExecRule) :=
  match lookupStr config.repository_rule_sets repository.name with
  | some rule_set_id =>
    (match get_rule_set rule_set_id with
     | some rs => some (rule_set_id, rs)
     | none => default_rule_set_fallback config get_rule_set)
  | none => default_rule_set_fallback config get_rule_set

/-- A repository's slot in the batch result map: either the structured
error entry `{"error": ...}` or the per-rule check results. -/
inductive RepoResult where
  | error (message : String)
  | checked (results : List (String × RuleCheckResult))
  deriving DecidableEq, Repr

/-- The batch loop of `Linter.lint_repositories` (`linter.py` lines
155-190), threading the console-read counter through the per-repository
passes. The `except` arm around `check_repository` is unreachable in this
total model (per-rule exceptions are already contained inside it). -/
def lint_repositories_go (cfg : LinterFlags) (config : RepolintConfigModel)
    (get_rule_set : String → Option (List ExecRule)) (inputs : Nat → String) :
    List Repository → Nat → List (String × RepoResult)
  | [], _ => []
  | repo :: rest, k =>
    match get_rule_set_for_repository config get_rule_set repo with
    | none =>
      (repo.name, .error "No rule set found for repository") ::
        lint_repositories_go cfg config get_rule_set inputs rest k
    | some (_, rs) =>
      let pass := check_repository_go cfg inputs rs k
      (repo.name, .checked pass.1) ::
        lint_repositories_go cfg config get_rule_set inputs rest (k + pass.2.2)

/-- Model of `Linter.lint_repositories`. -/
def lint_repositories (cfg : LinterFlags) (config : RepolintConfigModel)
    (get_rule_set : String → Option (List ExecRule)) (inputs : Nat → String)
    (repositories : List Repository) : List (String × RepoResult) :=
  lint_repositories_go cfg config get_rule_set inputs repositories 0

theorem lint_repositories_go_length (cfg : LinterFlags)
    (config : RepolintConfigModel) (get_rule_set : String → Option (List ExecRule))
    (inputs : Nat → String) :
    ∀ (repos : List Repository) (k : Nat),
      (lint_repositories_go cfg config get_rule_set inputs repos k).length =
        repos.length
  | [], _ => rfl
  | repo :: rest, k => by
    cases hsel : get_rule_set_for_repository config get_rule_set repo <;>
      simp [lint_repositories_go, hsel,
        lint_repositories_go_length cfg config get_rule_set inputs rest]

theorem lint_repositories_go_no_rule_set (cfg : LinterFlags)
    (config : RepolintConfigModel) (get_rule_set : String → Option (List ExecRule))
    (inputs : Nat → String) :
    ∀ (repos : List Repository) (k i : Nat) (hi : i < repos.length),
      get_rule_set_for_repository config get_rule_set (repos.get ⟨i, hi⟩) = none →
      (lint_repositories_go cfg config get_rule_set inputs repos k)[i]? =
        some ((repos.get ⟨i, hi⟩).name,
          .error "No rule set found for repository")
  | [], _, i, hi => by simp at hi
  | repo :: rest, k, 0, hi => by
    intro hsel
    simp only [List.get] at hsel
    simp [lint_repositories_go, hsel]
  | repo :: rest, k, i + 1, hi => by
    intro hsel
    have hi2 : i < rest.length := by simpa using hi
    simp only [List.get] at hsel
    cases hhead : get_rule_set_for_repository config get_rule_set repo with
    | none =>
      simpa [lint_repositories_go, hhead] using
        lint_repositories_go_no_rule_set cfg config get_rule_set inputs rest k i
          hi2 hsel
    | some p =>
      obtain ⟨rsid, rs⟩ := p
      simpa [lint_repositories_go, hhead] using
        lint_repositories_go_no_rule_set cfg config get_rule_set inputs rest
          (k + (check_repository_go cfg inputs rs k).2.2) i hi2 hsel

/-- C8: for every repository for which neither the repository-specific
rule-set id nor the configured default resolves in the registry, the batch
records the structured "no rule set" error entry in that repository's slot
and still produces an entry for every repository of the batch (the missing
rule set never aborts the loop). -/
theorem C8_missing_rule_set_not_fatal (cfg : LinterFlags)
    (config : RepolintConfigModel) (get_rule_set : String → Option (List ExecRule))
    (inputs : Nat → String) (repos : List Repository) (i : Nat)
    (hi : i < repos.length)
    (hsel : get_rule_set_for_repository config get_rule_set
      (repos.get ⟨i, hi⟩) = none) :
    (lint_repositories cfg config get_rule_set inputs repos).length =
      repos.length ∧
    (lint_repositories cfg config get_rule_set inputs repos)[i]? =
      some ((repos.get ⟨i, hi⟩).name, .error "No rule set found for repository") := by
  refine ⟨lint_repositories_go_length cfg config get_rule_set inputs repos 0, ?_⟩
  exact lint_repositories_go_no_rule_set cfg config get_rule_set inputs repos 0 i
    hi hsel

/-- An empty registry and a configuration naming a default that does not
resolve. -/
def c8config : RepolintConfigModel := ⟨"missing", [("other-repo", "rs1")]⟩

theorem C8_missing_rule_set_not_fatal_witness :
    get_rule_set_for_repository c8config (fun _ => none) ⟨"repo-a"⟩ = none ∧
    ((lint_repositories ⟨false, false, false⟩ c8config (fun _ => none)
        (fun _ => "") [⟨"repo-a"⟩, ⟨"repo-b"⟩]).length = 2 ∧
      (lint_repositories ⟨false, false, false⟩ c8config (fun _ => none)
          (fun _ => "") [⟨"repo-a"⟩, ⟨"repo-b"⟩])[0]? =
        some ("repo-a", .error "No rule set found for repository")) :=
  ⟨rfl, C8_missing_rule_set_not_fatal ⟨false, false, false⟩ c8config
    (fun _ => none) (fun _ => "") [⟨"repo-a"⟩, ⟨"repo-b"⟩] 0 (by decide) rfl⟩

end Repolint
